import Mathlib

/-!
Verification of the `abook` audiobook-bundle tool (src/abook/main.py and
src/abook/tagutils.py) against its natural-language specification.

Shallow embedding conventions:
* Python exceptions (`ValueError`, `SystemExit`, `KeyError`) become
  `Except String` results carrying the raised message.
* `pathlib.Path` values are kept as plain strings (no filesystem access is
  modelled; only the string content matters for the claims below).
* YAML/manifest dictionaries are modelled by the inductive `Yaml`, with
  dictionaries as association lists `List (String × Yaml)`; `dict.get(k)`
  becomes an association-list lookup.
* Code of the repository that lives in modules missing from `src/`
  (`abook/utils.py`, `abook/const.py`) is modelled from the spec; each such
  definition's doc comment says so.
-/

namespace Abap

/-- A decimal digit rendered as a character, as Python's `str.format` does. -/
def digToChar (d : Nat) : Char := Char.ofNat (48 + d)

/-- The numeric value of a decimal digit character. -/
def charToDig (c : Char) : Nat := c.toNat - 48

/-- Whether a character is a decimal digit. -/
def isDig (c : Char) : Bool := 48 ≤ c.toNat && c.toNat ≤ 57

/-- Little-endian decimal digits with an explicit fuel argument, so the
definition is structurally recursive and kernel-computable. -/
def toDigitsAux : Nat → Nat → List Nat
  | _, 0 => []
  | 0, _ => []
  | fuel + 1, n => n % 10 :: toDigitsAux fuel (n / 10)

/-- Little-endian decimal digits of `n` (`n` itself is always enough
fuel). -/
def natDigits (n : Nat) : List Nat := toDigitsAux n n

/-- The decimal digit characters of `n`, most significant first
(Python's `str(n)` for a non-negative integer). -/
def digitChars (n : Nat) : List Char := (natDigits n).reverse.map digToChar

/-- Python `str(n)` for a natural number. -/
def natRepr (n : Nat) : String := if n = 0 then "0" else ⟨digitChars n⟩

/-- Python's `'{:02d}'.format n`: zero-pad the decimal form to width two. -/
def pad2 (n : Nat) : String := if n < 10 then "0" ++ natRepr n else natRepr n

/-- Python's `'{:03d}'.format n`: zero-pad the decimal form to width three. -/
def pad3 (n : Nat) : String :=
  if n < 10 then "00" ++ natRepr n
  else if n < 100 then "0" ++ natRepr n
  else natRepr n

/-- The hours/minutes/seconds split used by `Duration._split` in
src/abook/main.py: `divmod(duration, 60)` then `divmod(minutes, 60)`. -/
def hmsplit (n : Nat) : Nat × Nat × Nat :=
  let minutes := n / 60
  let seconds := n % 60
  let hours := minutes / 60
  (hours, minutes % 60, seconds)

/-- Render a second count in the `HH:MM:SS` textual form.

Modelled from the spec: `abook/utils.py` (`format_duration`) is not under
`src/`; the spec states it renders a non-negative second count as
two-digit zero-padded `HH:MM:SS`, matching the default branch of
`Duration.__format__` in src/abook/main.py. -/
def format_duration (n : Nat) : String :=
  let hms := hmsplit n
  pad2 hms.1 ++ ":" ++ pad2 hms.2.1 ++ ":" ++ pad2 hms.2.2

/-- Split a character list at each colon. -/
def splitCols : List Char → List (List Char)
  | [] => [[]]
  | c :: cs =>
    if c = ':' then [] :: splitCols cs
    else
      match splitCols cs with
      | [] => [[c]]
      | f :: rest => (c :: f) :: rest

/-- Numeric value of a big-endian digit-character list. -/
def digitsVal (cs : List Char) : Nat := Nat.ofDigits 10 (cs.reverse.map charToDig)

/-- Parse one colon-separated field: a nonempty run of decimal digits. -/
def parseField (cs : List Char) : Except String Nat :=
  if cs.isEmpty then .error "Invalid duration"
  else if cs.all isDig then .ok (digitsVal cs)
  else .error "Invalid duration"

/-- Parse a colon-separated duration string back to a second count.

Modelled from the spec: `abook/utils.py` (`parse_duration`) is not under
`src/`; the spec states it accepts the `HH:MM:SS` textual form and
recovers `hours*3600 + minutes*60 + seconds`, failing with an
InvalidInput error on malformed input.  Colon-separated numeric fields
are folded by `acc * 60 + field`, which also accepts the bare-seconds
string `'0'` that `Chapter.from_dict` in src/abook/main.py relies on as
its default `end` value. -/
def parse_duration (s : String) : Except String Nat :=
  (splitCols s.data).foldlM (fun acc p => do
    let v ← parseField p
    pure (acc * 60 + v)) 0

/-- `utils.first_of`: the first element of a sequence, or absent.

Modelled from the spec: `abook/utils.py` (`first_of`) is not under `src/`;
the spec states it returns the first element of a sequence, or an absent
value if the sequence is empty. -/
def first_of {α : Type} : List α → Option α
  | [] => none
  | a :: _ => some a

/-- `utils.slugify`: deterministic lowercase separator-normalized identifier.

Modelled from the spec: `abook/utils.py` (`slugify`) is not under `src/`;
the spec states it deterministically converts a title into a lowercase,
separator-normalized, filesystem/URL-safe identifier.  Letters are
lowercased and every non-alphanumeric character becomes a hyphen. -/
def slugify (s : String) : String :=
  ⟨s.data.map (fun c => if c.isAlphanum then c.toLower else '-')⟩

/-- `utils.validate_lang_code`: whether a string is an acceptable language
code.

Modelled from the spec: `abook/utils.py` (`validate_lang_code`) is not
under `src/`; the spec states it accepts common two-letter and
two-letter-plus-region forms and rejects empty/malformed strings. -/
def validate_lang_code (s : String) : Bool :=
  match s.data with
  | [a, b] => a.isAlpha && b.isAlpha
  | [a, b, '-', c, d] => a.isAlpha && b.isAlpha && c.isAlpha && d.isAlpha
  | _ => false

/-- `const.DEFAULT_LANG_CODE`.

Modelled from the spec: `abook/const.py` is not under `src/`; the spec
states only that there is a fixed constant default language code. -/
def DEFAULT_LANG_CODE : String := "en"

/-- `Duration` (src/abook/main.py): a frozen value holding the validated
second count.  The Python attribute is an `int` checked non-negative by
the `non_negative` validator, embedded here as a `Nat`. -/
structure Duration where
  duration : Nat
  deriving Repr, DecidableEq

/-- Constructing a `Duration` runs the `non_negative` validator
(src/abook/main.py, `non_negative`): a negative value raises
`ValueError('duration must be non-negative')`. -/
def Duration.make (v : Int) : Except String Duration :=
  if 0 ≤ v then .ok ⟨v.toNat⟩ else .error "duration must be non-negative"

/-- `Duration.__str__`: `utils.format_duration(self.duration)`. -/
def Duration.str (d : Duration) : String := format_duration d.duration

/-- `Duration.from_string`: `cls(utils.parse_duration(s))`. -/
def Duration.from_string (s : String) : Except String Duration := do
  let n ← parse_duration s
  Duration.make n

/-- `Duration.__format__` (src/abook/main.py): the spec string
`'h:m:s.ms'` selects the chapter form with a literal `.000` millisecond
field; any other spec string yields plain `hh:mm:ss`. -/
def Duration.format (d : Duration) (fmt : String) : String :=
  let hms := hmsplit d.duration
  if fmt = "h:m:s.ms" then
    pad2 hms.1 ++ ":" ++ pad2 hms.2.1 ++ ":" ++ pad2 hms.2.2 ++ ".000"
  else
    pad2 hms.1 ++ ":" ++ pad2 hms.2.1 ++ ":" ++ pad2 hms.2.2

/-- YAML-style document values, used for the `as_dict`/`from_dict`
manifest round trip.  Dictionaries are association lists. -/
inductive Yaml where
  | null : Yaml
  | str : String → Yaml
  | nat : Nat → Yaml
  | bool : Bool → Yaml
  | list : List Yaml → Yaml
  | dict : List (String × Yaml) → Yaml
  deriving Repr

/-- `d.get(k)` on a Python dict, as association-list lookup. -/
def Yaml.lookup (d : List (String × Yaml)) (k : String) : Option Yaml :=
  match d with
  | [] => none
  | (k', v) :: rest => if k' = k then some v else Yaml.lookup rest k

/-- Encode an optional Python string (which may be `None`) as Yaml. -/
def optYaml : Option String → Yaml
  | some s => .str s
  | none => .null

/-- Read an optional string field: a missing key or a null value is
Python's `None`; a stored non-string value is outside this typed
embedding and rejected. -/
def getOptStr (d : List (String × Yaml)) (k : String) : Except String (Option String) :=
  match Yaml.lookup d k with
  | none => .ok none
  | some .null => .ok none
  | some (.str s) => .ok (some s)
  | some _ => .error "expected string"

/-- Read a string field with a default for a missing key
(Python `d.get(k, default)` used where a string is then required). -/
def getStrD (d : List (String × Yaml)) (k : String) (dflt : String) : Except String String :=
  match Yaml.lookup d k with
  | none => .ok dflt
  | some (.str s) => .ok s
  | some _ => .error "expected string"

/-- Read a required string field (Python `d[k]` followed by use as a
string; a missing key raises `KeyError`). -/
def getStr (d : List (String × Yaml)) (k : String) : Except String String :=
  match Yaml.lookup d k with
  | some (.str s) => .ok s
  | _ => .error "expected string"

/-- Map a fallible translation over a list, propagating the first error
(Python's list comprehension over a fallible call). -/
def mapME {α β : Type} (f : α → Except String β) : List α → Except String (List β)
  | [] => .ok []
  | a :: l => do
    let b ← f a
    let bs ← mapME f l
    pure (b :: bs)

/-- `Chapter` (src/abook/main.py): a named time range. -/
structure Chapter where
  name : String
  start : Duration
  «end» : Duration
  deriving Repr, DecidableEq

/-- `Chapter.from_dict`: `start` from `d['start']`, `end` from
`d.get('end', '0')`, name from `d['name']`. -/
def Chapter.from_dict (d : List (String × Yaml)) : Except String Chapter := do
  let start ← Duration.from_string (← getStr d "start")
  let e ← Duration.from_string (← getStrD d "end" "0")
  let name ← getStr d "name"
  pure ⟨name, start, e⟩

/-- `Chapter.as_dict`. -/
def Chapter.as_dict (c : Chapter) : List (String × Yaml) :=
  [("name", .str c.name),
   ("start", .str c.start.str),
   ("end", .str c.«end».str)]

/-- `Artifact` (src/abook/main.py): path, free-text description, type tag.
The path (a `pathlib.Path` in Python) is kept as a string; `description`
and `type` may be Python `None` when built by `Artifact.from_dict` from a
document missing those keys. -/
structure Artifact where
  path : String
  description : Option String
  type : Option String
  deriving Repr, DecidableEq

/-- `Artifact.from_dict`. -/
def Artifact.from_dict (d : List (String × Yaml)) : Except String Artifact := do
  let path ← getStr d "path"
  let description ← getOptStr d "description"
  let type ← getOptStr d "type"
  pure ⟨path, description, type⟩

/-- `Artifact.as_dict`: the `Filelike` path entry plus description and
type. -/
def Artifact.as_dict (a : Artifact) : List (String × Yaml) :=
  [("path", .str a.path),
   ("description", optYaml a.description),
   ("type", optYaml a.type)]

/-- `Audiofile` (src/abook/main.py): one audio track. -/
structure Audiofile where
  path : String
  author : Option String
  title : Option String
  duration : Duration
  explicit : Bool
  chapters : List Chapter
  deriving Repr, DecidableEq

/-- `Audiofile.from_dict`: note that the `explicit` key of the document is
never read, so the attrs default `False` is always used. -/
def Audiofile.from_dict (d : List (String × Yaml)) : Except String Audiofile := do
  let duration ← Duration.from_string (← getStrD d "duration" "0")
  let path ← getStr d "path"
  let author ← getOptStr d "author"
  let title ← getOptStr d "title"
  let chapters ←
    match Yaml.lookup d "chapters" with
    | none => pure []
    | some (.list l) =>
      mapME (fun y =>
        match y with
        | .dict cd => Chapter.from_dict cd
        | _ => .error "expected dict") l
    | some _ => .error "expected list"
  pure ⟨path, author, title, duration, false, chapters⟩

/-- `Audiofile.as_dict`. -/
def Audiofile.as_dict (af : Audiofile) : List (String × Yaml) :=
  [("path", .str af.path),
   ("title", optYaml af.title),
   ("author", optYaml af.author),
   ("duration", .str af.duration.str),
   ("explicit", .bool af.explicit),
   ("chapters", .list (af.chapters.map (fun c => .dict c.as_dict)))]

/-- `Abook` (src/abook/main.py): the root bundle entity.  The private
`_filename` attribute is kept as a string. -/
structure Abook where
  filename : String
  authors : List String
  title : Option String
  slug : Option String
  description : Option String
  lang : String
  audiofiles : List Audiofile
  artifacts : List Artifact
  deriving Repr, DecidableEq

/-- `Abook.VERSION`. -/
def Abook.VERSION : Nat := 1

/-- Constructing an `Abook` runs the `lang_code` validator
(src/abook/main.py, `lang_code`): an invalid language code raises
`ValueError('lang contains invalid language code')`. -/
def Abook.make (filename : String) (authors : List String)
    (title slug description : Option String) (lang : String)
    (audiofiles : List Audiofile) (artifacts : List Artifact) :
    Except String Abook :=
  if validate_lang_code lang then
    .ok ⟨filename, authors, title, slug, description, lang, audiofiles, artifacts⟩
  else .error "lang contains invalid language code"

/-- `Abook.__getitem__`: indexes into `_audiofiles`; an out-of-range index
raises `IndexError`, embedded as `none`. -/
def Abook.getItem (b : Abook) (idx : Nat) : Option Audiofile :=
  b.audiofiles[idx]?

/-- `Abook.__len__`: the length of `_audiofiles`. -/
def Abook.length (b : Abook) : Nat := b.audiofiles.length

/-- `Abook.from_dict`. -/
def Abook.from_dict (filename : String) (d : List (String × Yaml)) :
    Except String Abook := do
  let authors ←
    match Yaml.lookup d "authors" with
    | none => pure []
    | some (.list l) =>
      mapME (fun y =>
        match y with
        | .str s => pure s
        | _ => Except.error "expected string") l
    | some _ => .error "expected list"
  let title ← getOptStr d "title"
  let slug ← getOptStr d "slug"
  let descr ←
    match Yaml.lookup d "description" with
    | none => pure ""
    | some .null => pure ""
    | some (.str s) => pure s
    | some _ => .error "expected string"
  let lang ← getStrD d "lang" DEFAULT_LANG_CODE
  let audiofiles ←
    match Yaml.lookup d "audiofiles" with
    | none => pure []
    | some (.list l) =>
      mapME (fun y =>
        match y with
        | .dict ad => Audiofile.from_dict ad
        | _ => .error "expected dict") l
    | some _ => .error "expected list"
  let artifacts ←
    match Yaml.lookup d "artifacts" with
    | none => pure []
    | some (.list l) =>
      mapME (fun y =>
        match y with
        | .dict ad => Artifact.from_dict ad
        | _ => .error "expected dict") l
    | some _ => .error "expected list"
  Abook.make filename authors title slug (some descr) lang audiofiles artifacts

/-- `Abook.as_dict`. -/
def Abook.as_dict (b : Abook) : List (String × Yaml) :=
  [("version", .nat Abook.VERSION),
   ("authors", .list (b.authors.map .str)),
   ("title", optYaml b.title),
   ("slug", optYaml b.slug),
   ("description", .str ((b.description.getD ""))),
   ("lang", .str b.lang),
   ("audiofiles", .list (b.audiofiles.map (fun af => .dict af.as_dict))),
   ("artifacts", .list (b.artifacts.map (fun a => .dict a.as_dict)))]

/-- The `Tags` namedtuple of src/abook/tagutils.py.  `artist`, `album` and
`title` may be Python `None`; `sample_rate` is `None` for Ogg Opus. -/
structure Tags where
  artist : Option String
  album : Option String
  title : Option String
  duration : Int
  channels : Nat
  sample_rate : Option Nat
  deriving Repr, DecidableEq

/-- The container-info classes distinguished by `get_tags`
(src/abook/tagutils.py): `type(tags.info)` is one of the four supported
mutagen info classes, or anything else. -/
inductive FType where
  | oggVorbisInfo
  | mpegInfo
  | mp4Info
  | oggOpusInfo
  | otherInfo
  deriving Repr, DecidableEq

/-- The data `get_tags` reads from a file opened with `mutagen.File`:
its container-info class, the truncated `info.length`, `info.channels`,
`info.sample_rate`, and the tag lookups used by each branch (mutagen
returns a list of values per key; a missing key gives `None`). -/
structure MFile where
  ftype : FType
  length : Int
  channels : Nat
  sample_rate : Nat
  vorbisGet : String → Option (List String)
  id3Get : String → Option (List String)
  mp4Get : String → Option (List String)

/-- `single_item` (src/abook/tagutils.py): the first element of a list
value, passed through `utils.first_of`. -/
def single_item (v : Option (List String)) : Option String :=
  match v with
  | none => none
  | some l => first_of l

/-- `id3_getter` (src/abook/tagutils.py): look up an ID3 frame and take
the first of its `text` values when the frame is present. -/
def id3_getter (tag : String) (f : MFile) : Option String :=
  match f.id3Get tag with
  | none => none
  | some text => first_of text

/-- `get_tags` (src/abook/tagutils.py): dispatch on the container-info
class and build the normalized `Tags` tuple; any other class raises
`ValueError('Unknown file type')`. -/
def get_tags (f : MFile) : Except String Tags :=
  let duration := f.length
  match f.ftype with
  | .oggVorbisInfo =>
    .ok ⟨single_item (f.vorbisGet "artist"), single_item (f.vorbisGet "album"),
      single_item (f.vorbisGet "title"), duration, f.channels, some f.sample_rate⟩
  | .mpegInfo =>
    .ok ⟨id3_getter "TPE1" f, id3_getter "TALB" f, id3_getter "TIT2" f,
      duration, f.channels, some f.sample_rate⟩
  | .mp4Info =>
    .ok ⟨single_item (f.mp4Get "©ART"), single_item (f.mp4Get "©alb"),
      single_item (f.mp4Get "©nam"), duration, f.channels, some f.sample_rate⟩
  | .oggOpusInfo =>
    .ok ⟨single_item (f.vorbisGet "artist"), single_item (f.vorbisGet "album"),
      single_item (f.vorbisGet "title"), duration, f.channels, none⟩
  | .otherInfo => .error "Unknown file type"

/-- The result of `scan.labeled_scan` for the four labels `do_init` uses:
the lists of relative paths matched under each label. -/
structure ScanResults where
  audio : List String
  cover : List String
  fanart : List String
  image : List String

/-- Lexicographic code-point comparison on character lists (how Python
compares strings). -/
def charListLe : List Char → List Char → Bool
  | [], _ => true
  | _ :: _, [] => false
  | a :: as, b :: bs =>
    if a.toNat < b.toNat then true
    else if b.toNat < a.toNat then false
    else charListLe as bs

/-- Python's `<=` on strings: lexicographic by code point. -/
def strLe (a b : String) : Bool := charListLe a.data b.data

/-- Insert into an ascending list, keeping earlier-inserted equal
elements first. -/
def insertSorted (a : String) : List String → List String
  | [] => [a]
  | b :: l => if strLe a b then a :: b :: l else b :: insertSorted a l

/-- Python's `sorted` on strings: a stable ascending lexicographic sort
(code-point order), here as insertion sort. -/
def sortStrings (l : List String) : List String := l.foldr insertSorted []

/-- `sorted(results.get('audio', []))` in `do_init`. -/
def sortedAudio (r : ScanResults) : List String := sortStrings r.audio

/-- Insertion into an insertion-ordered deduplicating key set
(`collections.OrderedDict` used as an ordered set: `d[k] = True`). -/
def odInsert (l : List String) (k : String) : List String :=
  if k ∈ l then l else l ++ [k]

/-- The author chosen for a track in `do_init`:
`tags.artist if tags.artist else 'Unknown artist'` (Python truthiness:
`None` and the empty string both fall back). -/
def authorOf (t : Tags) : String :=
  match t.artist with
  | some a => if a = "" then "Unknown artist" else a
  | none => "Unknown artist"

/-- The album contribution of a track in `do_init`:
`if tags.album: albums[tags.album] = True` (Python truthiness: `None` and
the empty string contribute nothing). -/
def albumOf (t : Tags) : Option String :=
  match t.album with
  | some a => if a = "" then none else some a
  | none => none

/-- The per-file loop of `do_init` (src/abook/main.py): for each audio
path in order, extract tags, default the author, build an `Audiofile`
(with the `Duration` validator), and update the ordered album/author
sets.  `tags` abstracts `tagutils.get_tags` on the joined absolute path,
keyed here by the relative path. -/
def initLoop (tags : String → Tags) :
    List String → List Audiofile → List String → List String →
    Except String (List Audiofile × List String × List String)
  | [], afs, authors, albums => .ok (afs, authors, albums)
  | p :: rest, afs, authors, albums => do
    let t := tags p
    let author := authorOf t
    let dur ← Duration.make t.duration
    let item : Audiofile := ⟨p, some author, t.title, dur, false, []⟩
    let albums' := match albumOf t with
      | some al => odInsert albums al
      | none => albums
    let authors' := odInsert authors author
    initLoop tags rest (afs ++ [item]) authors' albums'

/-- One artifact pass of `do_init`: for each scan result under label `c`,
skip paths already in `unique`, otherwise append `Artifact(result, c,
type=c)` and record the path. -/
def addArtifacts (c : String) :
    List String → List Artifact → List String → List Artifact × List String
  | [], arts, uniq => (arts, uniq)
  | p :: rest, arts, uniq =>
    if p ∈ uniq then addArtifacts c rest arts uniq
    else addArtifacts c rest (arts ++ [⟨p, some c, some c⟩]) (p :: uniq)

/-- The artifact assembly of `do_init`: the three labels in priority
order `cover`, `fanart`, `image`, deduplicating by path. -/
def buildArtifacts (r : ScanResults) : List Artifact :=
  let s1 := addArtifacts "cover" r.cover [] []
  let s2 := addArtifacts "fanart" r.fanart s1.1 s1.2
  (addArtifacts "image" r.image s2.1 s2.2).1

/-- `do_init` (src/abook/main.py), up to the bundle that would be written
to the output file: sort the scanned audio paths, fail fatally when none
were found (`SystemExit('No audio files found!')`), run the per-file
loop, choose the album title, assemble the artifacts, and construct the
bundle.  `dir` is `args.directory`; `tags` abstracts tag extraction per
relative path; the YAML write itself is I/O and happens only after this
value is produced. -/
def do_init (dir : String) (scan : ScanResults) (tags : String → Tags) :
    Except String Abook := do
  let audio_files := sortedAudio scan
  if audio_files.isEmpty then
    .error "No audio files found!"
  else do
    let (audiofiles, authors, albums) ← initLoop tags audio_files [] [] []
    let album := match first_of albums with
      | some a => a
      | none => "Unknown album"
    let artifacts := buildArtifacts scan
    Abook.make dir authors (some album) (some (slugify album)) none
      DEFAULT_LANG_CODE audiofiles artifacts

/-- The chapter-comment argument list of `do_transcode`
(src/abook/main.py lines 331–338): for each chapter at zero-based index
`i`, `'--comment'`, `'CHAPTER{i:03d}=' + format(chapter.start,
'hh:mm:ss.ms')`, `'--comment'`, `'CHAPTER{i:03d}NAME=' + chapter.name`.
Note the f-string's format spec is the literal `hh:mm:ss.ms`. -/
def chapterComments (chapters : List Chapter) : List String :=
  chapters.enum.flatMap (fun ic =>
    ["--comment",
     "CHAPTER" ++ pad3 ic.1 ++ "=" ++ ic.2.start.format "hh:mm:ss.ms",
     "--comment",
     "CHAPTER" ++ pad3 ic.1 ++ "NAME=" ++ ic.2.name])

/-! ### Decimal rendering and parsing lemmas -/

theorem toDigitsAux_eq_digits :
    ∀ fuel n : Nat, n ≤ fuel → toDigitsAux fuel n = Nat.digits 10 n := by
  intro fuel
  induction fuel with
  | zero =>
    intro n hn
    have : n = 0 := Nat.le_zero.mp hn
    subst this
    rw [Nat.digits_zero]
    rfl
  | succ fuel ih =>
    intro n hn
    match n with
    | 0 =>
      rw [Nat.digits_zero]
      rfl
    | m + 1 =>
      have hpos : 0 < m + 1 := Nat.succ_pos m
      have hdiv : (m + 1) / 10 < m + 1 := Nat.div_lt_self hpos (by omega)
      have hfuel : (m + 1) / 10 ≤ fuel := by omega
      rw [show toDigitsAux (fuel + 1) (m + 1)
            = (m + 1) % 10 :: toDigitsAux fuel ((m + 1) / 10) from rfl,
        ih _ hfuel, ← Nat.digits_def' (by omega : 1 < 10) hpos]

theorem natDigits_eq_digits (n : Nat) : natDigits n = Nat.digits 10 n :=
  toDigitsAux_eq_digits n n (Nat.le_refl n)

theorem mem_digitChars {c : Char} {n : Nat} (h : c ∈ digitChars n) :
    ∃ d : Nat, d < 10 ∧ c = digToChar d := by
  unfold digitChars at h
  rw [natDigits_eq_digits] at h
  obtain ⟨d, hd, rfl⟩ := List.mem_map.mp h
  exact ⟨d, Nat.digits_lt_base (by omega) (List.mem_reverse.mp hd), rfl⟩

theorem charToDig_digToChar {d : Nat} (h : d < 10) :
    charToDig (digToChar d) = d := by
  interval_cases d <;> decide

theorem isDig_digToChar {d : Nat} (h : d < 10) : isDig (digToChar d) = true := by
  interval_cases d <;> decide

theorem isDig_ne_colon {c : Char} (h : isDig c = true) : c ≠ ':' := by
  intro hc
  subst hc
  simp [isDig] at h

theorem digitsVal_digitChars (n : Nat) : digitsVal (digitChars n) = n := by
  unfold digitsVal digitChars
  rw [natDigits_eq_digits, List.map_reverse, List.map_map, List.map_reverse,
    List.reverse_reverse]
  have h : List.map (charToDig ∘ digToChar) (Nat.digits 10 n) = Nat.digits 10 n := by
    rw [List.map_congr_left (g := id) (fun d hd => by
      simpa using charToDig_digToChar (Nat.digits_lt_base (by omega) hd))]
    exact List.map_id _
  rw [h]
  exact Nat.ofDigits_digits 10 n

theorem natRepr_data (n : Nat) :
    (natRepr n).data = if n = 0 then ['0'] else digitChars n := by
  unfold natRepr
  split <;> rfl

theorem natRepr_data_ne_nil (n : Nat) : (natRepr n).data ≠ [] := by
  rw [natRepr_data]
  split
  · simp
  · unfold digitChars
    simp only [ne_eq, List.map_eq_nil_iff, List.reverse_eq_nil_iff]
    rw [natDigits_eq_digits]
    exact Nat.digits_ne_nil_iff_ne_zero.mpr (by assumption)

theorem all_isDig_natRepr (n : Nat) : (natRepr n).data.all isDig = true := by
  rw [List.all_eq_true]
  intro c hc
  rw [natRepr_data] at hc
  by_cases h0 : n = 0
  · rw [if_pos h0] at hc
    simp at hc
    subst hc
    decide
  · rw [if_neg h0] at hc
    obtain ⟨d, hd, rfl⟩ := mem_digitChars hc
    exact isDig_digToChar hd

theorem digitsVal_natRepr (n : Nat) : digitsVal (natRepr n).data = n := by
  rw [natRepr_data]
  by_cases h0 : n = 0
  · subst h0
    decide
  · rw [if_neg h0]
    exact digitsVal_digitChars n

theorem parseField_of {cs : List Char} (h1 : cs ≠ [])
    (h2 : cs.all isDig = true) : parseField cs = .ok (digitsVal cs) := by
  unfold parseField
  rw [if_neg (by simpa using h1), if_pos h2]

theorem parseField_natRepr (n : Nat) :
    parseField (natRepr n).data = .ok n := by
  rw [parseField_of (natRepr_data_ne_nil n) (all_isDig_natRepr n),
    digitsVal_natRepr]

theorem digitsVal_cons_zero (cs : List Char) :
    digitsVal ('0' :: cs) = digitsVal cs := by
  unfold digitsVal
  rw [List.reverse_cons, List.map_append, Nat.ofDigits_append]
  simp [charToDig, Nat.ofDigits]

theorem pad2_data (n : Nat) :
    (pad2 n).data = if n < 10 then '0' :: (natRepr n).data else (natRepr n).data := by
  unfold pad2
  split
  · rw [String.data_append]
    rfl
  · rfl

theorem parseField_pad2 (n : Nat) : parseField (pad2 n).data = .ok n := by
  rw [pad2_data]
  by_cases h : n < 10
  · rw [if_pos h, parseField_of (by simp)
      (by
        rw [List.all_cons]
        exact by
          rw [all_isDig_natRepr]
          decide),
      digitsVal_cons_zero, digitsVal_natRepr]
  · rw [if_neg h]
    exact parseField_natRepr n

theorem noColon_pad2 {c : Char} {n : Nat} (h : c ∈ (pad2 n).data) : c ≠ ':' := by
  rw [pad2_data] at h
  have hd : isDig c = true := by
    by_cases h10 : n < 10
    · rw [if_pos h10] at h
      rcases List.mem_cons.mp h with h | h
      · subst h
        decide
      · exact List.all_eq_true.mp (all_isDig_natRepr n) c h
    · rw [if_neg h10] at h
      exact List.all_eq_true.mp (all_isDig_natRepr n) c h
  exact isDig_ne_colon hd

theorem splitCols_of_noColon {cs : List Char} (h : ∀ c ∈ cs, c ≠ ':') :
    splitCols cs = [cs] := by
  induction cs with
  | nil => rfl
  | cons c cs ih =>
    unfold splitCols
    rw [if_neg (h c (List.mem_cons_self c cs))]
    rw [ih (fun x hx => h x (List.mem_cons_of_mem c hx))]

theorem splitCols_append {a r : List Char} (h : ∀ c ∈ a, c ≠ ':') :
    splitCols (a ++ ':' :: r) = a :: splitCols r := by
  induction a with
  | nil =>
    show splitCols (':' :: r) = [] :: splitCols r
    conv_lhs => rw [splitCols]
    rw [if_pos rfl]
  | cons c a ih =>
    show splitCols (c :: (a ++ ':' :: r)) = (c :: a) :: splitCols r
    conv_lhs => rw [splitCols]
    rw [if_neg (h c (List.mem_cons_self c a))]
    rw [ih (fun x hx => h x (List.mem_cons_of_mem c hx))]

/-- The `HH:MM:SS` round trip: parsing the rendered form of any second
count recovers it exactly. -/
theorem parse_format_duration (n : Nat) :
    parse_duration (format_duration n) = .ok n := by
  have hdata : (format_duration n).data =
      (pad2 (n / 60 / 60)).data ++ ':' ::
        ((pad2 (n / 60 % 60)).data ++ ':' :: (pad2 (n % 60)).data) := by
    show (pad2 (n / 60 / 60) ++ ":" ++ pad2 (n / 60 % 60) ++ ":" ++ pad2 (n % 60)).data = _
    simp [String.data_append]
  unfold parse_duration
  rw [hdata, splitCols_append (fun c hc => noColon_pad2 hc),
    splitCols_append (fun c hc => noColon_pad2 hc),
    splitCols_of_noColon (fun c hc => noColon_pad2 hc)]
  simp only [List.foldlM, parseField_pad2, bind, Except.bind, pure, Except.pure]
  congr 1
  omega

/-- Rendering a `Duration` and parsing it back yields the same value. -/
theorem from_string_str (d : Duration) : Duration.from_string d.str = .ok d := by
  unfold Duration.from_string Duration.str
  rw [parse_format_duration]
  show Duration.make (Int.ofNat d.duration) = .ok d
  unfold Duration.make
  rw [if_pos (show (0 : Int) ≤ Int.ofNat d.duration from Int.natCast_nonneg d.duration)]
  rfl

/-! ### Manifest round-trip lemmas -/

theorem except_bind_ok {α β : Type} (x : Except String α)
    (f : α → Except String β) (b : β) :
    (x >>= f) = .ok b ↔ ∃ a, x = .ok a ∧ f a = .ok b := by
  cases x with
  | error e => simp [Bind.bind, Except.bind]
  | ok a => simp [Bind.bind, Except.bind]

theorem chapter_from_as (c : Chapter) : Chapter.from_dict c.as_dict = .ok c := by
  unfold Chapter.from_dict Chapter.as_dict
  simp [getStr, getStrD, Yaml.lookup, from_string_str, Bind.bind, Except.bind,
    pure, Except.pure]

theorem mapME_chapter_dicts (l : List Chapter) :
    mapME (fun y =>
      match y with
      | .dict cd => Chapter.from_dict cd
      | _ => .error "expected dict") (l.map (fun c => Yaml.dict c.as_dict)) = .ok l := by
  induction l with
  | nil => rfl
  | cons c l ih =>
    rw [List.map_cons]
    unfold mapME
    simp [chapter_from_as, ih, Bind.bind, Except.bind, pure, Except.pure]

/-- An `Audiofile` after one dictionary round trip: identical except that
the `explicit` flag is reset to the attrs default `False`, which
`Audiofile.from_dict` never overrides. -/
def stripExplicit (af : Audiofile) : Audiofile :=
  { af with explicit := false }

theorem audiofile_from_as (af : Audiofile) :
    Audiofile.from_dict af.as_dict = .ok (stripExplicit af) := by
  obtain ⟨path, author, title, duration, explicit, chapters⟩ := af
  unfold Audiofile.from_dict Audiofile.as_dict stripExplicit
  cases author <;> cases title <;>
    simp [getStr, getStrD, getOptStr, optYaml, Yaml.lookup, from_string_str,
      mapME_chapter_dicts, Bind.bind, Except.bind, pure, Except.pure]

theorem mapME_audiofile_dicts (l : List Audiofile) :
    mapME (fun y =>
      match y with
      | .dict ad => Audiofile.from_dict ad
      | _ => .error "expected dict") (l.map (fun af => Yaml.dict af.as_dict)) =
      .ok (l.map stripExplicit) := by
  induction l with
  | nil => rfl
  | cons af l ih =>
    rw [List.map_cons]
    unfold mapME
    simp [audiofile_from_as, ih, Bind.bind, Except.bind, pure, Except.pure]

theorem artifact_from_as (a : Artifact) : Artifact.from_dict a.as_dict = .ok a := by
  obtain ⟨path, descr, ty⟩ := a
  unfold Artifact.from_dict Artifact.as_dict
  cases descr <;> cases ty <;>
    simp [getStr, getOptStr, optYaml, Yaml.lookup, Bind.bind, Except.bind,
      pure, Except.pure]

theorem mapME_artifact_dicts (l : List Artifact) :
    mapME (fun y =>
      match y with
      | .dict ad => Artifact.from_dict ad
      | _ => .error "expected dict") (l.map (fun a => Yaml.dict a.as_dict)) = .ok l := by
  induction l with
  | nil => rfl
  | cons a l ih =>
    rw [List.map_cons]
    unfold mapME
    simp [artifact_from_as, ih, Bind.bind, Except.bind, pure, Except.pure]

theorem mapME_str_yaml (l : List String) :
    mapME (fun y =>
      match y with
      | Yaml.str s => Except.ok s
      | _ => Except.error "expected string") (l.map Yaml.str) = .ok l := by
  induction l with
  | nil => rfl
  | cons s l ih =>
    rw [List.map_cons]
    unfold mapME
    simp [ih, Bind.bind, Except.bind, pure, Except.pure]

theorem abook_from_as (b : Abook) (h : validate_lang_code b.lang = true) :
    Abook.from_dict b.filename b.as_dict =
      .ok ⟨b.filename, b.authors, b.title, b.slug,
        some (b.description.getD ""), b.lang,
        b.audiofiles.map stripExplicit, b.artifacts⟩ := by
  obtain ⟨fn, authors, title, slug, descr, lang, afs, arts⟩ := b
  simp only at h
  unfold Abook.from_dict Abook.as_dict
  cases title <;> cases slug <;>
    simp [getStr, getStrD, getOptStr, optYaml, Yaml.lookup, Abook.make, h,
      mapME_str_yaml, mapME_audiofile_dicts, mapME_artifact_dicts,
      Bind.bind, Except.bind, pure, Except.pure]

/-! ### `do_init` loop characterization -/

/-- The `Audiofile` that `do_init` builds for one scanned path. -/
def mkTrack (p : String) (t : Tags) : Audiofile :=
  ⟨p, some (authorOf t), t.title, ⟨t.duration.toNat⟩, false, []⟩

theorem duration_make_ok {v : Int} {d : Duration}
    (h : Duration.make v = .ok d) : 0 ≤ v ∧ d = ⟨v.toNat⟩ := by
  unfold Duration.make at h
  split at h
  · refine ⟨by assumption, ?_⟩
    cases h
    rfl
  · cases h

/-- The ordered-set contribution of one track's album tag in `do_init`. -/
def albumStep (tags : String → Tags) (acc : List String) (p : String) : List String :=
  match albumOf (tags p) with
  | some a => odInsert acc a
  | none => acc

theorem initLoop_ok {tags : String → Tags} :
    ∀ (files : List String) (afs : List Audiofile) (auths albs : List String)
      {afs' : List Audiofile} {auths' albs' : List String},
      initLoop tags files afs auths albs = .ok (afs', auths', albs') →
      afs' = afs ++ files.map (fun p => mkTrack p (tags p)) ∧
      auths' = files.foldl (fun acc p => odInsert acc (authorOf (tags p))) auths ∧
      albs' = files.foldl (albumStep tags) albs := by
  intro files
  induction files with
  | nil =>
    intro afs auths albs afs' auths' albs' h
    unfold initLoop at h
    cases h
    simp
  | cons p rest ih =>
    intro afs auths albs afs' auths' albs' h
    unfold initLoop at h
    rcases (except_bind_ok _ _ _).mp h with ⟨dur, hdur, hrest⟩
    obtain ⟨hv, rfl⟩ := duration_make_ok hdur
    obtain ⟨h1, h2, h3⟩ := ih _ _ _ hrest
    refine ⟨?_, ?_, ?_⟩
    · rw [h1]
      simp [mkTrack, List.append_assoc]
    · rw [h2]
      rfl
    · rw [h3]
      rfl

/-- The insertion-ordered deduplicated album list `do_init` collects. -/
def albumsCollected (scan : ScanResults) (tags : String → Tags) : List String :=
  (sortedAudio scan).foldl (albumStep tags) []

/-- The bundle title `do_init` chooses. -/
def albumChoice (scan : ScanResults) (tags : String → Tags) : String :=
  match first_of (albumsCollected scan tags) with
  | some a => a
  | none => "Unknown album"

theorem first_of_eq_head {α : Type} (l : List α) : first_of l = l.head? := by
  cases l <;> rfl

theorem foldl_albumStep_filterMap (tags : String → Tags) :
    ∀ (l : List String) (acc : List String),
      l.foldl (albumStep tags) acc =
        (l.filterMap (fun p => albumOf (tags p))).foldl odInsert acc := by
  intro l
  induction l with
  | nil => intro acc; rfl
  | cons p rest ih =>
    intro acc
    rw [List.foldl_cons, ih]
    unfold albumStep
    cases h : albumOf (tags p) <;> simp [List.filterMap_cons, h]

theorem odInsert_ne_nil {acc : List String} (h : acc ≠ []) (k : String) :
    odInsert acc k ≠ [] := by
  unfold odInsert
  split
  · exact h
  · simp

theorem head_odInsert {acc : List String} (h : acc ≠ []) (k : String) :
    (odInsert acc k).head? = acc.head? := by
  unfold odInsert
  split
  · rfl
  · cases acc with
    | nil => exact absurd rfl h
    | cons a t => rfl

theorem head_foldl_odInsert :
    ∀ (l : List String) {acc : List String}, acc ≠ [] →
      (l.foldl odInsert acc).head? = acc.head? := by
  intro l
  induction l with
  | nil => intro acc h; rfl
  | cons k rest ih =>
    intro acc h
    rw [List.foldl_cons, ih (odInsert_ne_nil h k), head_odInsert h]

theorem head_foldl_odInsert_nil (l : List String) :
    (l.foldl odInsert []).head? = l.head? := by
  cases l with
  | nil => rfl
  | cons x rest =>
    rw [List.foldl_cons]
    have : odInsert [] x = [x] := rfl
    rw [this, head_foldl_odInsert rest (by simp)]
    rfl

/-- `albumChoice` is the first truthy album tag in sorted path order, or
the default. -/
theorem albumChoice_eq (scan : ScanResults) (tags : String → Tags) :
    albumChoice scan tags =
      (((sortedAudio scan).filterMap (fun p => albumOf (tags p))).head?).getD
        "Unknown album" := by
  unfold albumChoice albumsCollected
  rw [first_of_eq_head, foldl_albumStep_filterMap, head_foldl_odInsert_nil]
  cases ((sortedAudio scan).filterMap (fun p => albumOf (tags p))).head? <;> rfl

/-- Unpacking a successful `do_init` run into its components. -/
theorem do_init_ok {dir : String} {scan : ScanResults} {tags : String → Tags}
    {b : Abook} (h : do_init dir scan tags = .ok b) :
    b.audiofiles = (sortedAudio scan).map (fun p => mkTrack p (tags p)) ∧
    b.title = some (albumChoice scan tags) ∧
    b.slug = some (slugify (albumChoice scan tags)) ∧
    b.artifacts = buildArtifacts scan ∧
    b.authors = (sortedAudio scan).foldl
      (fun acc p => odInsert acc (authorOf (tags p))) [] ∧
    b.filename = dir ∧ b.lang = DEFAULT_LANG_CODE ∧ b.description = none := by
  simp only [do_init] at h
  split at h
  · cases h
  · rcases (except_bind_ok _ _ _).mp h with ⟨trip, htrip, hrest⟩
    obtain ⟨afs, auths, albs⟩ := trip
    obtain ⟨h1, h2, h3⟩ := initLoop_ok _ _ _ _ htrip
    unfold Abook.make at hrest
    rw [if_pos (by decide)] at hrest
    cases hrest
    subst h1 h2 h3
    refine ⟨by simp, ?_, ?_, rfl, by simp, rfl, rfl, rfl⟩
    · show some _ = some (albumChoice scan tags)
      unfold albumChoice albumsCollected
      rfl
    · show some _ = some (slugify (albumChoice scan tags))
      unfold albumChoice albumsCollected
      rfl

/-! ### Artifact-assembly invariants -/

/-- How many artifacts in a list carry a given path. -/
def pathCount (arts : List Artifact) (p : String) : Nat :=
  (arts.filter (fun a => a.path = p)).length

theorem pathCount_append (arts₁ arts₂ : List Artifact) (p : String) :
    pathCount (arts₁ ++ arts₂) p = pathCount arts₁ p + pathCount arts₂ p := by
  unfold pathCount
  rw [List.filter_append, List.length_append]

theorem addArtifacts_inv {c : String} :
    ∀ (paths : List String) (arts : List Artifact) (uniq : List String),
      (∀ q, pathCount arts q = if q ∈ uniq then 1 else 0) →
      ∀ q, pathCount (addArtifacts c paths arts uniq).1 q =
        if q ∈ (addArtifacts c paths arts uniq).2 then 1 else 0 := by
  intro paths
  induction paths with
  | nil => intro arts uniq h q; exact h q
  | cons p rest ih =>
    intro arts uniq h q
    unfold addArtifacts
    by_cases hp : p ∈ uniq
    · rw [if_pos hp]
      exact ih arts uniq h q
    · rw [if_neg hp]
      refine ih _ _ (fun q' => ?_) q
      rw [pathCount_append]
      by_cases hq : q' = p
      · subst hq
        have h0 : pathCount arts q' = 0 := by
          rw [h q', if_neg hp]
        rw [h0, if_pos (List.mem_cons_self q' uniq)]
        simp [pathCount]
      · have : pathCount [(⟨p, some c, some c⟩ : Artifact)] q' = 0 := by
          simp [pathCount, Ne.symm hq]
        rw [this, h q', Nat.add_zero]
        simp [List.mem_cons, hq]

theorem addArtifacts_shape {c : String} :
    ∀ (paths : List String) (arts : List Artifact) (uniq : List String),
      ∃ new : List Artifact,
        (addArtifacts c paths arts uniq).1 = arts ++ new ∧
        ∀ a ∈ new, a.type = some c ∧ a.path ∉ uniq ∧ a.path ∈ paths := by
  intro paths
  induction paths with
  | nil =>
    intro arts uniq
    exact ⟨[], by simp [addArtifacts], by simp⟩
  | cons p rest ih =>
    intro arts uniq
    unfold addArtifacts
    by_cases hp : p ∈ uniq
    · rw [if_pos hp]
      obtain ⟨new, hn, hprop⟩ := ih arts uniq
      exact ⟨new, hn, fun a ha =>
        ⟨(hprop a ha).1, (hprop a ha).2.1, List.mem_cons_of_mem p (hprop a ha).2.2⟩⟩
    · rw [if_neg hp]
      obtain ⟨new, hn, hprop⟩ := ih (arts ++ [⟨p, some c, some c⟩]) (p :: uniq)
      refine ⟨⟨p, some c, some c⟩ :: new, ?_, ?_⟩
      · rw [hn, List.append_assoc]
        rfl
      · intro a ha
        rcases List.mem_cons.mp ha with rfl | ha
        · exact ⟨rfl, hp, List.mem_cons_self p rest⟩
        · obtain ⟨ht, hu, hm⟩ := hprop a ha
          exact ⟨ht, fun hc => hu (List.mem_cons_of_mem p hc),
            List.mem_cons_of_mem p hm⟩

theorem addArtifacts_uniq_sub {c : String} :
    ∀ (paths : List String) (arts : List Artifact) (uniq : List String),
      ∀ q ∈ (addArtifacts c paths arts uniq).2, q ∈ uniq ∨ q ∈ paths := by
  intro paths
  induction paths with
  | nil => intro arts uniq q hq; exact Or.inl hq
  | cons p rest ih =>
    intro arts uniq q hq
    unfold addArtifacts at hq
    by_cases hp : p ∈ uniq
    · rw [if_pos hp] at hq
      rcases ih _ _ q hq with h | h
      · exact Or.inl h
      · exact Or.inr (List.mem_cons_of_mem p h)
    · rw [if_neg hp] at hq
      rcases ih _ _ q hq with h | h
      · rcases List.mem_cons.mp h with rfl | h
        · exact Or.inr (List.mem_cons_self q rest)
        · exact Or.inl h
      · exact Or.inr (List.mem_cons_of_mem p h)

theorem addArtifacts_uniq_mem {c : String} :
    ∀ (paths : List String) (arts : List Artifact) (uniq : List String) (q : String),
      q ∈ uniq ∨ q ∈ paths → q ∈ (addArtifacts c paths arts uniq).2 := by
  intro paths
  induction paths with
  | nil =>
    intro arts uniq q hq
    rcases hq with h | h
    · exact h
    · cases h
  | cons p rest ih =>
    intro arts uniq q hq
    unfold addArtifacts
    by_cases hp : p ∈ uniq
    · rw [if_pos hp]
      rcases hq with h | h
      · exact ih _ _ q (Or.inl h)
      · rcases List.mem_cons.mp h with rfl | h
        · exact ih _ _ q (Or.inl hp)
        · exact ih _ _ q (Or.inr h)
    · rw [if_neg hp]
      rcases hq with h | h
      · exact ih _ _ q (Or.inl (List.mem_cons_of_mem p h))
      · rcases List.mem_cons.mp h with rfl | h
        · exact ih _ _ q (Or.inl (List.mem_cons_self q uniq))
        · exact ih _ _ q (Or.inr h)

/-- C4: In the init command's artifact assembly, every relative path that
appears in the scan results under one or more of the labels `cover`,
`fanart` and `image` yields exactly one Artifact with that path, and its
type is the first label in the priority order cover, fanart, image under
which the path appears. -/
theorem init_artifact_dedup_priority (r : ScanResults) (p : String)
    (h : p ∈ r.cover ∨ p ∈ r.fanart ∨ p ∈ r.image) :
    ∃ a : Artifact, (buildArtifacts r).filter (fun x => x.path = p) = [a] ∧
      a.type = some (if p ∈ r.cover then "cover"
        else if p ∈ r.fanart then "fanart" else "image") := by
  classical
  obtain ⟨arts1, uniq1, he1⟩ :
      ∃ x y, addArtifacts "cover" r.cover [] [] = (x, y) := ⟨_, _, rfl⟩
  obtain ⟨arts2, uniq2, he2⟩ :
      ∃ x y, addArtifacts "fanart" r.fanart arts1 uniq1 = (x, y) := ⟨_, _, rfl⟩
  obtain ⟨arts3, uniq3, he3⟩ :
      ∃ x y, addArtifacts "image" r.image arts2 uniq2 = (x, y) := ⟨_, _, rfl⟩
  have inv0 : ∀ q, pathCount ([] : List Artifact) q =
      if q ∈ ([] : List String) then 1 else 0 := by
    intro q
    simp [pathCount]
  have inv1 : ∀ q, pathCount arts1 q = if q ∈ uniq1 then 1 else 0 := by
    have := addArtifacts_inv (c := "cover") r.cover [] [] inv0
    rw [he1] at this
    exact this
  have inv2 : ∀ q, pathCount arts2 q = if q ∈ uniq2 then 1 else 0 := by
    have := addArtifacts_inv (c := "fanart") r.fanart arts1 uniq1 inv1
    rw [he2] at this
    exact this
  have inv3 : ∀ q, pathCount arts3 q = if q ∈ uniq3 then 1 else 0 := by
    have := addArtifacts_inv (c := "image") r.image arts2 uniq2 inv2
    rw [he3] at this
    exact this
  have mem1 : ∀ q, q ∈ ([] : List String) ∨ q ∈ r.cover → q ∈ uniq1 := by
    intro q hq
    have := addArtifacts_uniq_mem (c := "cover") r.cover [] [] q hq
    rw [he1] at this
    exact this
  have mem2 : ∀ q, q ∈ uniq1 ∨ q ∈ r.fanart → q ∈ uniq2 := by
    intro q hq
    have := addArtifacts_uniq_mem (c := "fanart") r.fanart arts1 uniq1 q hq
    rw [he2] at this
    exact this
  have mem3 : ∀ q, q ∈ uniq2 ∨ q ∈ r.image → q ∈ uniq3 := by
    intro q hq
    have := addArtifacts_uniq_mem (c := "image") r.image arts2 uniq2 q hq
    rw [he3] at this
    exact this
  have sub1 : ∀ q ∈ uniq1, q ∈ ([] : List String) ∨ q ∈ r.cover := by
    intro q hq
    refine addArtifacts_uniq_sub (c := "cover") r.cover [] [] q ?_
    rw [he1]
    exact hq
  have sub2 : ∀ q ∈ uniq2, q ∈ uniq1 ∨ q ∈ r.fanart := by
    intro q hq
    refine addArtifacts_uniq_sub (c := "fanart") r.fanart arts1 uniq1 q ?_
    rw [he2]
    exact hq
  obtain ⟨new1, hsh1, hprop1⟩ := addArtifacts_shape (c := "cover") r.cover [] []
  rw [he1, List.nil_append] at hsh1
  obtain ⟨new2, hsh2, hprop2⟩ :=
    addArtifacts_shape (c := "fanart") r.fanart arts1 uniq1
  rw [he2] at hsh2
  obtain ⟨new3, hsh3, hprop3⟩ :=
    addArtifacts_shape (c := "image") r.image arts2 uniq2
  rw [he3] at hsh3
  have hbuild : buildArtifacts r = arts3 := by
    show (addArtifacts "image" r.image
      (addArtifacts "fanart" r.fanart
        (addArtifacts "cover" r.cover [] []).1
        (addArtifacts "cover" r.cover [] []).2).1
      (addArtifacts "fanart" r.fanart
        (addArtifacts "cover" r.cover [] []).1
        (addArtifacts "cover" r.cover [] []).2).2).1 = arts3
    rw [he1]
    dsimp only
    rw [he2]
    dsimp only
    rw [he3]
  have hnot1 : p ∉ r.cover → p ∉ uniq1 := by
    intro hc hx
    rcases sub1 p hx with hx' | hx'
    · cases hx'
    · exact hc hx'
  have hnot2 : p ∉ r.cover → p ∉ r.fanart → p ∉ uniq2 := by
    intro hc hf hx
    rcases sub2 p hx with hx' | hx'
    · exact hnot1 hc hx'
    · exact hf hx'
  have hmem3 : p ∈ uniq3 := by
    rcases h with hc | hf | hi
    · exact mem3 p (Or.inl (mem2 p (Or.inl (mem1 p (Or.inr hc)))))
    · exact mem3 p (Or.inl (mem2 p (Or.inr hf)))
    · exact mem3 p (Or.inr hi)
  have hcount : (arts3.filter (fun x => x.path = p)).length = 1 := by
    have := inv3 p
    rw [if_pos hmem3] at this
    exact this
  obtain ⟨a, ha⟩ := List.length_eq_one.mp hcount
  have haf : a ∈ arts3 ∧ a.path = p := by
    have hmem : a ∈ arts3.filter (fun x => x.path = p) := by
      rw [ha]
      exact List.mem_singleton_self a
    have h2 := List.mem_filter.mp hmem
    exact ⟨h2.1, by simpa using h2.2⟩
  rw [hbuild]
  refine ⟨a, ha, ?_⟩
  by_cases hc : p ∈ r.cover
  · rw [if_pos hc]
    have hp1 : p ∈ uniq1 := mem1 p (Or.inr hc)
    have hp2 : p ∈ uniq2 := mem2 p (Or.inl hp1)
    have hain1 : a ∈ arts1 := by
      have h3 : a ∈ arts2 ++ new3 := hsh3 ▸ haf.1
      rcases List.mem_append.mp h3 with h2 | h3'
      · have h2' : a ∈ arts1 ++ new2 := hsh2 ▸ h2
        rcases List.mem_append.mp h2' with h1 | hn2
        · exact h1
        · exact absurd hp1 (haf.2 ▸ (hprop2 a hn2).2.1)
      · exact absurd hp2 (haf.2 ▸ (hprop3 a h3').2.1)
    exact (hprop1 a (hsh1 ▸ hain1)).1
  · by_cases hf : p ∈ r.fanart
    · rw [if_neg hc, if_pos hf]
      have hp2 : p ∈ uniq2 := mem2 p (Or.inr hf)
      have hain2 : a ∈ new2 := by
        have h3 : a ∈ arts2 ++ new3 := hsh3 ▸ haf.1
        rcases List.mem_append.mp h3 with h2 | h3'
        · have h2' : a ∈ arts1 ++ new2 := hsh2 ▸ h2
          rcases List.mem_append.mp h2' with h1 | hn2
          · exact absurd ((hprop1 a (hsh1 ▸ h1)).2.2) (haf.2 ▸ hc)
          · exact hn2
        · exact absurd hp2 (haf.2 ▸ (hprop3 a h3').2.1)
      exact (hprop2 a hain2).1
    · rw [if_neg hc, if_neg hf]
      have hain3 : a ∈ new3 := by
        have h3 : a ∈ arts2 ++ new3 := hsh3 ▸ haf.1
        rcases List.mem_append.mp h3 with h2 | h3'
        · have h2' : a ∈ arts1 ++ new2 := hsh2 ▸ h2
          rcases List.mem_append.mp h2' with h1 | hn2
          · exact absurd ((hprop1 a (hsh1 ▸ h1)).2.2) (haf.2 ▸ hc)
          · exact absurd ((hprop2 a hn2).2.2) (haf.2 ▸ hf)
        · exact h3'
      exact (hprop3 a hain3).1

/-! ### Claim theorems -/

/-- C1 (code-bug evidence): `do_transcode` renders each chapter start
with the f-string format spec `hh:mm:ss.ms`, but `Duration.__format__`
only recognises `h:m:s.ms`, so the emitted comment is
`CHAPTER000=00:01:05` without the `.000` millisecond field the spec and
the chapter-form branch of `Duration.__format__` call for; the second
conjunct shows the value the intended branch would have produced. -/
theorem transcode_chapter_comment_eval :
    chapterComments [⟨"Intro", ⟨65⟩, ⟨0⟩⟩] =
      ["--comment", "CHAPTER000=00:01:05",
       "--comment", "CHAPTER000NAME=Intro"] ∧
    Duration.format ⟨65⟩ "h:m:s.ms" = "00:01:05.000" := by
  exact ⟨rfl, rfl⟩

/-- C3: `Audiofile.from_dict` never reads the `explicit` key, so every
successfully deserialized `Audiofile` has `explicit = False` (even when
the document says `explicit: true`), and re-serializing it writes
`explicit: false`. -/
theorem audiofile_explicit_reset (d : List (String × Yaml)) (af : Audiofile)
    (h : Audiofile.from_dict d = .ok af) :
    af.explicit = false ∧
    Yaml.lookup af.as_dict "explicit" = some (.bool false) := by
  have hexp : af.explicit = false := by
    unfold Audiofile.from_dict at h
    rcases (except_bind_ok _ _ _).mp h with ⟨s, _, h⟩
    rcases (except_bind_ok _ _ _).mp h with ⟨dur, _, h⟩
    rcases (except_bind_ok _ _ _).mp h with ⟨path, _, h⟩
    rcases (except_bind_ok _ _ _).mp h with ⟨author, _, h⟩
    rcases (except_bind_ok _ _ _).mp h with ⟨title, _, h⟩
    dsimp only at h
    split at h
    · rcases (except_bind_ok _ _ _).mp h with ⟨chs, _, h⟩
      cases h
      rfl
    · rcases (except_bind_ok _ _ _).mp h with ⟨chs, _, h⟩
      cases h
      rfl
    · rcases (except_bind_ok _ _ _).mp h with ⟨chs, hbad, h⟩
      cases hbad
  refine ⟨hexp, ?_⟩
  obtain ⟨p, au, ti, du, ex, ch⟩ := af
  cases hexp
  rfl

/-- C3 witness: a document carrying `explicit: true` deserializes to an
`Audiofile` with `explicit = False` that re-serializes as
`explicit: false`. -/
theorem audiofile_explicit_reset_witness :
    Audiofile.from_dict [("path", Yaml.str "x.mp3"), ("explicit", Yaml.bool true)] =
      .ok ⟨"x.mp3", none, none, ⟨0⟩, false, []⟩ ∧
    (⟨"x.mp3", none, none, ⟨0⟩, false, []⟩ : Audiofile).explicit = false ∧
    Yaml.lookup (Audiofile.as_dict ⟨"x.mp3", none, none, ⟨0⟩, false, []⟩)
      "explicit" = some (.bool false) :=
  ⟨rfl,
    (audiofile_explicit_reset
      [("path", Yaml.str "x.mp3"), ("explicit", Yaml.bool true)]
      ⟨"x.mp3", none, none, ⟨0⟩, false, []⟩ rfl).1,
    (audiofile_explicit_reset
      [("path", Yaml.str "x.mp3"), ("explicit", Yaml.bool true)]
      ⟨"x.mp3", none, none, ⟨0⟩, false, []⟩ rfl).2⟩

/-- C6: `get_tags` raises `ValueError('Unknown file type')` exactly for
container-info classes outside the four supported kinds (Ogg Vorbis,
MP3, MP4, Ogg Opus); for the supported kinds that error never occurs. -/
theorem get_tags_unknown_file_type (f : MFile) :
    get_tags f = .error "Unknown file type" ↔ f.ftype = FType.otherInfo := by
  cases hf : f.ftype <;> simp [get_tags, hf]

/-- C7: `Duration.make` fails with the `non_negative` validator error on
every negative value, succeeds on every non-negative value, and every
`Duration` it produces is non-negative. -/
theorem duration_non_negative (v : Int) :
    (v < 0 → Duration.make v = .error "duration must be non-negative") ∧
    (0 ≤ v → Duration.make v = .ok ⟨v.toNat⟩) ∧
    (∀ d : Duration, Duration.make v = .ok d → 0 ≤ (d.duration : Int)) := by
  refine ⟨?_, ?_, ?_⟩
  · intro hv
    unfold Duration.make
    rw [if_neg (by omega)]
  · intro hv
    unfold Duration.make
    rw [if_pos hv]
  · intro d _
    exact Int.natCast_nonneg d.duration

/-- C7 witness: `Duration(-1)` fails with the validator message and
`Duration(5)` succeeds. -/
theorem duration_non_negative_witness :
    Duration.make (-1) = .error "duration must be non-negative" ∧
    Duration.make 5 = .ok ⟨(5 : Int).toNat⟩ :=
  ⟨(duration_non_negative (-1)).1 (by decide),
   (duration_non_negative 5).2.1 (by decide)⟩

/-- C9: when the scan yields no audio files, `do_init` terminates with
`SystemExit('No audio files found!')` and produces no bundle, so nothing
reaches the manifest write that only happens after a bundle is built. -/
theorem init_empty_scan_fatal (dir : String) (scan : ScanResults)
    (tags : String → Tags) (h : scan.audio = []) :
    do_init dir scan tags = .error "No audio files found!" := by
  have hs : sortedAudio scan = [] := by
    unfold sortedAudio sortStrings
    rw [h]
    rfl
  simp only [do_init, hs]
  rfl

/-- C9 witness: an empty scan aborts with the fatal message. -/
theorem init_empty_scan_fatal_witness :
    (ScanResults.mk [] [] [] []).audio = [] ∧
    do_init "x" ⟨[], [], [], []⟩ (fun _ => ⟨none, none, none, 0, 2, none⟩) =
      .error "No audio files found!" :=
  ⟨rfl, init_empty_scan_fatal "x" ⟨[], [], [], []⟩
    (fun _ => ⟨none, none, none, 0, 2, none⟩) rfl⟩

/-- C10: a bundle's length is the number of its audio tracks, indexing
returns exactly the indexed track, and both are unchanged by replacing
the artifact list, which is unreachable through this interface. -/
theorem abook_sequence_semantics (b : Abook) (i : Nat) (h : i < b.length)
    (arts : List Artifact) :
    b.length = b.audiofiles.length ∧
    b.getItem i = some (b.audiofiles.get ⟨i, h⟩) ∧
    Abook.length ⟨b.filename, b.authors, b.title, b.slug, b.description,
      b.lang, b.audiofiles, arts⟩ = b.length ∧
    Abook.getItem ⟨b.filename, b.authors, b.title, b.slug, b.description,
      b.lang, b.audiofiles, arts⟩ i = b.getItem i := by
  refine ⟨rfl, ?_, rfl, rfl⟩
  unfold Abook.getItem
  exact List.getElem?_eq_getElem h

/-- C10 witness: a one-track bundle has length 1, index 0 returns the
track, and swapping in a nonempty artifact list changes neither. -/
theorem abook_sequence_semantics_witness :
    (0 : Nat) <
      (Abook.mk "f" [] none none none "en"
        [⟨"a.mp3", none, none, ⟨1⟩, false, []⟩] []).length ∧
    (Abook.mk "f" [] none none none "en"
        [⟨"a.mp3", none, none, ⟨1⟩, false, []⟩] []).length =
      (Abook.mk "f" [] none none none "en"
        [⟨"a.mp3", none, none, ⟨1⟩, false, []⟩] []).audiofiles.length ∧
    (Abook.mk "f" [] none none none "en"
        [⟨"a.mp3", none, none, ⟨1⟩, false, []⟩] []).getItem 0 =
      some ((Abook.mk "f" [] none none none "en"
        [⟨"a.mp3", none, none, ⟨1⟩, false, []⟩] []).audiofiles.get
          ⟨0, Nat.one_pos⟩) ∧
    Abook.length ⟨"f", [], none, none, none, "en",
      [⟨"a.mp3", none, none, ⟨1⟩, false, []⟩],
      [⟨"c.jpg", none, some "cover"⟩]⟩ =
      (Abook.mk "f" [] none none none "en"
        [⟨"a.mp3", none, none, ⟨1⟩, false, []⟩] []).length ∧
    Abook.getItem ⟨"f", [], none, none, none, "en",
      [⟨"a.mp3", none, none, ⟨1⟩, false, []⟩],
      [⟨"c.jpg", none, some "cover"⟩]⟩ 0 =
      (Abook.mk "f" [] none none none "en"
        [⟨"a.mp3", none, none, ⟨1⟩, false, []⟩] []).getItem 0 :=
  ⟨Nat.one_pos,
    abook_sequence_semantics
      (Abook.mk "f" [] none none none "en"
        [⟨"a.mp3", none, none, ⟨1⟩, false, []⟩] []) 0 Nat.one_pos
      [⟨"c.jpg", none, some "cover"⟩]⟩

/-- C2: serializing a bundle yields a document whose `audiofiles` and
`artifacts` lists have the bundle's track and artifact counts, and
deserializing that document reconstructs a bundle with the same authors,
title, slug, language code, and per-track titles, authors, durations and
chapters.  The hypothesis is the bundle's own construction invariant:
its language code passed the attrs `lang_code` validator. -/
theorem abook_manifest_roundtrip (b : Abook)
    (h : validate_lang_code b.lang = true) :
    (∃ l, Yaml.lookup b.as_dict "audiofiles" = some (.list l) ∧
      l.length = b.audiofiles.length) ∧
    (∃ l, Yaml.lookup b.as_dict "artifacts" = some (.list l) ∧
      l.length = b.artifacts.length) ∧
    ∃ b', Abook.from_dict b.filename b.as_dict = .ok b' ∧
      b'.authors = b.authors ∧ b'.title = b.title ∧ b'.slug = b.slug ∧
      b'.lang = b.lang ∧
      b'.audiofiles.map (fun af => (af.title, af.author, af.duration, af.chapters)) =
        b.audiofiles.map (fun af => (af.title, af.author, af.duration, af.chapters)) ∧
      b'.artifacts.length = b.artifacts.length := by
  refine ⟨⟨_, rfl, by simp⟩, ⟨_, rfl, by simp⟩, ?_⟩
  refine ⟨_, abook_from_as b h, rfl, rfl, rfl, rfl, ?_, rfl⟩
  show (b.audiofiles.map stripExplicit).map _ = _
  rw [List.map_map]
  apply List.map_congr_left
  intro af _
  rfl

/-- Concrete one-track, one-artifact bundle for the C2 witness. -/
def witBundle : Abook :=
  ⟨"m.yaml", ["A"], some "T", some "t", none, "en",
    [⟨"p.mp3", some "A", some "Ti", ⟨3661⟩, true, [⟨"c1", ⟨5⟩, ⟨0⟩⟩]⟩],
    [⟨"c.jpg", some "cover", some "cover"⟩]⟩

/-- C2 witness: the round trip evaluated on a concrete bundle with one
track (carrying a chapter and `explicit = True`) and one artifact. -/
theorem abook_manifest_roundtrip_witness :
    validate_lang_code witBundle.lang = true ∧
    ((∃ l, Yaml.lookup witBundle.as_dict "audiofiles" = some (.list l) ∧
      l.length = witBundle.audiofiles.length) ∧
    (∃ l, Yaml.lookup witBundle.as_dict "artifacts" = some (.list l) ∧
      l.length = witBundle.artifacts.length) ∧
    ∃ b', Abook.from_dict witBundle.filename witBundle.as_dict = .ok b' ∧
      b'.authors = witBundle.authors ∧ b'.title = witBundle.title ∧
      b'.slug = witBundle.slug ∧ b'.lang = witBundle.lang ∧
      b'.audiofiles.map (fun af => (af.title, af.author, af.duration, af.chapters)) =
        witBundle.audiofiles.map (fun af => (af.title, af.author, af.duration, af.chapters)) ∧
      b'.artifacts.length = witBundle.artifacts.length) :=
  ⟨by decide, abook_manifest_roundtrip witBundle (by decide)⟩

/-- C4 witness: a path discoverable under all three labels yields exactly
one Artifact, typed `cover`. -/
theorem init_artifact_dedup_priority_witness :
    ("x.jpg" ∈ (ScanResults.mk [] ["x.jpg"] ["x.jpg"] ["x.jpg"]).cover ∨
     "x.jpg" ∈ (ScanResults.mk [] ["x.jpg"] ["x.jpg"] ["x.jpg"]).fanart ∨
     "x.jpg" ∈ (ScanResults.mk [] ["x.jpg"] ["x.jpg"] ["x.jpg"]).image) ∧
    ∃ a : Artifact,
      (buildArtifacts ⟨[], ["x.jpg"], ["x.jpg"], ["x.jpg"]⟩).filter
        (fun x => x.path = "x.jpg") = [a] ∧
      a.type = some
        (if "x.jpg" ∈ (ScanResults.mk [] ["x.jpg"] ["x.jpg"] ["x.jpg"]).cover
          then "cover"
          else if "x.jpg" ∈ (ScanResults.mk [] ["x.jpg"] ["x.jpg"] ["x.jpg"]).fanart
            then "fanart" else "image") :=
  ⟨by decide,
    init_artifact_dedup_priority ⟨[], ["x.jpg"], ["x.jpg"], ["x.jpg"]⟩ "x.jpg"
      (by decide)⟩

/-- C5: the bundle title `do_init` chooses is the album tag of the first
track in sorted path order that carries a truthy one (`albumOf` reflects
Python truthiness: an absent or empty album tag contributes nothing),
defaulting to `Unknown album`, and the slug is `slugify` of that title. -/
theorem init_album_title_slug {dir : String} {scan : ScanResults}
    {tags : String → Tags} {b : Abook} (h : do_init dir scan tags = .ok b) :
    b.title = some ((((sortedAudio scan).filterMap
      (fun p => albumOf (tags p))).head?).getD "Unknown album") ∧
    b.slug = some (slugify ((((sortedAudio scan).filterMap
      (fun p => albumOf (tags p))).head?).getD "Unknown album")) := by
  obtain ⟨-, h2, h3, -, -, -, -, -⟩ := do_init_ok h
  rw [albumChoice_eq] at h2 h3
  exact ⟨h2, h3⟩

/-- Concrete scan for the C5 witness: two audio files, given unsorted. -/
def witScan5 : ScanResults := ⟨["b.mp3", "a.mp3"], [], [], []⟩

/-- Concrete tag oracle for the C5 witness: only the lexicographically
later file carries an album tag. -/
def witTags5 : String → Tags := fun p =>
  if p = "a.mp3" then ⟨none, none, none, 0, 2, none⟩
  else ⟨none, some "Alb", none, 0, 2, none⟩

/-- The bundle the C5 witness run produces. -/
def witBook5 : Abook :=
  ⟨"d", ["Unknown artist"], some "Alb", some "alb", none, "en",
    [⟨"a.mp3", some "Unknown artist", none, ⟨0⟩, false, []⟩,
     ⟨"b.mp3", some "Unknown artist", none, ⟨0⟩, false, []⟩], []⟩

/-- C5 witness: the album of the first tagged track (in sorted order)
becomes title and slug. -/
theorem init_album_title_slug_witness :
    do_init "d" witScan5 witTags5 = .ok witBook5 ∧
    witBook5.title = some ((((sortedAudio witScan5).filterMap
      (fun p => albumOf (witTags5 p))).head?).getD "Unknown album") ∧
    witBook5.slug = some (slugify ((((sortedAudio witScan5).filterMap
      (fun p => albumOf (witTags5 p))).head?).getD "Unknown album")) :=
  ⟨rfl, init_album_title_slug rfl⟩

/-- C8: in a successful `do_init` run, the track authors are, in sorted
path order, the extracted artist tags with absent or empty tags replaced
by `Unknown artist` (`authorOf` reflects Python truthiness). -/
theorem init_author_default {dir : String} {scan : ScanResults}
    {tags : String → Tags} {b : Abook} (h : do_init dir scan tags = .ok b) :
    b.audiofiles.map (fun af => af.author) =
      (sortedAudio scan).map (fun p => some (authorOf (tags p))) := by
  obtain ⟨h1, -, -, -, -, -, -, -⟩ := do_init_ok h
  rw [h1, List.map_map]
  rfl

/-- Concrete scan for the C8 witness. -/
def witScan8 : ScanResults := ⟨["t2.mp3", "t1.mp3"], [], [], []⟩

/-- Concrete tag oracle for the C8 witness: one empty artist tag, one
present artist tag. -/
def witTags8 : String → Tags := fun p =>
  if p = "t1.mp3" then ⟨some "", none, none, 0, 2, none⟩
  else ⟨some "X", some "A2", none, 3, 2, some 44100⟩

/-- The bundle the C8 witness run produces. -/
def witBook8 : Abook :=
  ⟨"d8", ["Unknown artist", "X"], some "A2", some "a2", none, "en",
    [⟨"t1.mp3", some "Unknown artist", none, ⟨0⟩, false, []⟩,
     ⟨"t2.mp3", some "X", none, ⟨3⟩, false, []⟩], []⟩

/-- C8 witness: an empty artist tag falls back to `Unknown artist`, a
present one is kept. -/
theorem init_author_default_witness :
    do_init "d8" witScan8 witTags8 = .ok witBook8 ∧
    witBook8.audiofiles.map (fun af => af.author) =
      (sortedAudio witScan8).map (fun p => some (authorOf (witTags8 p))) :=
  ⟨rfl, init_author_default rfl⟩

end Abap
